import Mathlib

/-!
Verification development for the Evolenia simulation engine (Rust sources).

The Rust code is shallowly embedded:
* `f32` values that are only moved around (snapshot serialization) are
  modelled by their 32-bit patterns, i.e. natural numbers below `2^32`,
  so that "bit-for-bit" statements are exact.
* `f32`/`f64` values that take part in arithmetic (diagnostics in
  `metrics.rs`) are idealized as exact rationals `ℚ`; the final entropy
  value, which involves `log2`, lives in `ℝ`.
* Fallible file parsing (`state_io.rs`) is modelled as a total function
  from a byte list to `Except LoadError BufferSnapshot`.
-/

namespace Evolenia

/-! ## Snapshot codec (`state_io.rs`)

Bytes are naturals `< 256`; an f32 value is its 32-bit pattern, a natural
`< 2^32`.  `save_snapshot` produces the byte list written to the file;
`load_snapshot` parses a byte list. -/

/-- CPU-side snapshot of the five simulation arrays (`world.rs`,
`BufferSnapshot`); each f32 entry is modelled by its bit pattern. -/
structure BufferSnapshot where
  mass : List ℕ
  energy : List ℕ
  genome_a : List ℕ
  genome_b : List ℕ
  resource : List ℕ
  deriving Repr, DecidableEq

/-- `WORLD_WIDTH` from `world.rs`. -/
def WORLD_WIDTH : ℕ := 512

/-- `WORLD_HEIGHT` from `world.rs`. -/
def WORLD_HEIGHT : ℕ := 512

/-- The magic tag `b"EVOSNP01"` from `state_io.rs`, as bytes. -/
def MAGIC : List ℕ := [0x45, 0x56, 0x4F, 0x53, 0x4E, 0x50, 0x30, 0x31]

/-- Little-endian byte serialization of a value on `k` bytes
(`to_le_bytes`). -/
def leBytes (k : ℕ) (v : ℕ) : List ℕ :=
  (List.range k).map fun i => v / 256 ^ i % 256

/-- Little-endian value of a byte list (`from_le_bytes`). -/
def leVal (l : List ℕ) : ℕ :=
  l.foldr (fun b acc => b + 256 * acc) 0

/-- `write_vec_f32`: u64 little-endian element count, then each f32 value
as 4 little-endian bytes. -/
def write_vec_f32 (values : List ℕ) : List ℕ :=
  leBytes 8 values.length ++ (values.map (leBytes 4)).flatten

/-- `save_snapshot`: magic tag, width and height as u32 LE, then the five
length-prefixed arrays in order. -/
def save_snapshot (snapshot : BufferSnapshot) : List ℕ :=
  MAGIC ++ leBytes 4 WORLD_WIDTH ++ leBytes 4 WORLD_HEIGHT ++
    write_vec_f32 snapshot.mass ++ write_vec_f32 snapshot.energy ++
    write_vec_f32 snapshot.genome_a ++ write_vec_f32 snapshot.genome_b ++
    write_vec_f32 snapshot.resource

/-- Errors of `load_snapshot`.  The Rust code returns `io::Error`s: an
`InvalidData` error with message "invalid snapshot magic", an
`InvalidData` error with a dimension-mismatch message, and the
`UnexpectedEof` error produced by `read_exact` on a truncated file. -/
inductive LoadError where
  | badMagic : LoadError
  | dimMismatch (w h : ℕ) : LoadError
  | eof : LoadError
  deriving Repr, DecidableEq

/-- `read_exact`: take `k` bytes from the stream or fail with
`UnexpectedEof`. -/
def readExact (k : ℕ) (bytes : List ℕ) : Except LoadError (List ℕ × List ℕ) :=
  if bytes.length < k then .error .eof else .ok (bytes.take k, bytes.drop k)

/-- `chunks_exact(4)` + `f32::from_le_bytes`: group bytes 4 at a time into
32-bit words, dropping any shorter remainder. -/
def bytesToWords : List ℕ → List ℕ
  | b0 :: b1 :: b2 :: b3 :: rest => leVal [b0, b1, b2, b3] :: bytesToWords rest
  | _ => []

/-- `read_vec_f32`: read a u64 LE length, then `len * 4` bytes, decoded as
f32 words. -/
def read_vec_f32 (bytes : List ℕ) : Except LoadError (List ℕ × List ℕ) := do
  let (lenB, rest) ← readExact 8 bytes
  let len := leVal lenB
  let (dataB, rest) ← readExact (len * 4) rest
  pure (bytesToWords dataB, rest)

/-- `read_u32`. -/
def read_u32 (bytes : List ℕ) : Except LoadError (ℕ × List ℕ) := do
  let (b, rest) ← readExact 4 bytes
  pure (leVal b, rest)

/-- `load_snapshot`: check the magic tag, check width/height against the
live grid, then read the five arrays in order. -/
def load_snapshot (bytes : List ℕ) : Except LoadError BufferSnapshot := do
  let (magic, rest) ← readExact 8 bytes
  if magic ≠ MAGIC then
    throw .badMagic
  else do
    let (width, rest) ← read_u32 rest
    let (height, rest) ← read_u32 rest
    if width ≠ WORLD_WIDTH ∨ height ≠ WORLD_HEIGHT then
      throw (.dimMismatch width height)
    else do
      let (mass, rest) ← read_vec_f32 rest
      let (energy, rest) ← read_vec_f32 rest
      let (genome_a, rest) ← read_vec_f32 rest
      let (genome_b, rest) ← read_vec_f32 rest
      let (resource, _) ← read_vec_f32 rest
      pure { mass, energy, genome_a, genome_b, resource }

/-- A snapshot is well formed when every word fits in 32 bits and every
array length fits in the u64 length prefix. -/
def WFSnapshot (s : BufferSnapshot) : Prop :=
  (∀ v ∈ s.mass, v < 2 ^ 32) ∧ (∀ v ∈ s.energy, v < 2 ^ 32) ∧
  (∀ v ∈ s.genome_a, v < 2 ^ 32) ∧ (∀ v ∈ s.genome_b, v < 2 ^ 32) ∧
  (∀ v ∈ s.resource, v < 2 ^ 32) ∧
  s.mass.length < 2 ^ 64 ∧ s.energy.length < 2 ^ 64 ∧
  s.genome_a.length < 2 ^ 64 ∧ s.genome_b.length < 2 ^ 64 ∧
  s.resource.length < 2 ^ 64

instance (s : BufferSnapshot) : Decidable (WFSnapshot s) := by
  unfold WFSnapshot; infer_instance

/-! ## Diagnostics (`metrics.rs`)

The diagnostics consume flat arrays `genome_a : &[f32]` (4 components per
pixel) and `mass : &[f32]`; f32/f64 arithmetic is idealized as exact `ℚ`.
The loops `for i in 0..genome_a.len()/4` reading `genome_a[i*4..i*4+3]`
and `mass[i]` are embedded structurally: `toCells` walks the genome array
four entries at a time in step with the mass array.  (When
`mass.len() < genome_a.len()/4` the Rust code would panic on an
out-of-bounds index; theorems about such loops therefore carry the
well-formedness hypothesis `genome_a.length / 4 ≤ mass.length`.) -/

/-- One pixel as seen by the diagnostics: its mass and its four GenomeA
components `(r, mu, sigma, agg)`. -/
structure Cell where
  m : ℚ
  r : ℚ
  mu : ℚ
  sigma : ℚ
  agg : ℚ
  deriving Repr, DecidableEq

/-- Pair the flat GenomeA array (4 floats per pixel, remainder `< 4`
dropped by the `len()/4` pixel count) with the mass array. -/
def toCells : List ℚ → List ℚ → List Cell
  | r :: mu :: sigma :: agg :: gaRest, m :: mRest =>
      ⟨m, r, mu, sigma, agg⟩ :: toCells gaRest mRest
  | _, _ => []

/-- Rust saturating float-to-`u8` cast: truncate toward zero and clamp
into `[0, 255]`. -/
def toU8 (q : ℚ) : ℕ :=
  if q < 0 then 0 else min 255 ⌊q⌋.toNat

/-- Discretized `(r, mu, sigma)` bin key of a genome
(`compute_genetic_entropy`, lines 208–212):
`r_bin = ((r/16)*bins).min(bins-1) as u8` and similarly for `mu` (scale 1)
and `sigma` (scale 0.3). -/
def binKey (bins : ℕ) (c : Cell) : ℕ × ℕ × ℕ :=
  (toU8 (min (c.r / 16 * bins) ((bins : ℚ) - 1)),
   toU8 (min (c.mu * bins) ((bins : ℚ) - 1)),
   toU8 (min (c.sigma / (3 / 10) * bins) ((bins : ℚ) - 1)))

/-- The mass-weighted histogram entries: one `(bin key, mass)` pair per
live pixel (dead pixels, `mass < 0.01`, are skipped). -/
def binnedLive (bins : ℕ) (cells : List Cell) : List ((ℕ × ℕ × ℕ) × ℚ) :=
  cells.filterMap fun c =>
    if c.m < 1 / 100 then none else some (binKey bins c, c.m)

/-- The distinct keys of the histogram (the `HashMap` key set). -/
def histKeys (l : List ((ℕ × ℕ × ℕ) × ℚ)) : List (ℕ × ℕ × ℕ) :=
  (l.map Prod.fst).dedup

/-- Accumulated mass of one histogram bin
(`*histogram.entry(key).or_insert(0.0) += m`). -/
def binMass (l : List ((ℕ × ℕ × ℕ) × ℚ)) (key : ℕ × ℕ × ℕ) : ℚ :=
  ((l.filter fun e => e.1 = key).map Prod.snd).sum

/-- Total live mass accumulated alongside the histogram. -/
def totalLiveMass (l : List ((ℕ × ℕ × ℕ) × ℚ)) : ℚ :=
  (l.map Prod.snd).sum

/-- `compute_genetic_entropy` from `metrics.rs`: Shannon entropy (bits) of
the mass-weighted histogram of discretized `(r, mu, sigma)` genome bins
over live pixels.  The `HashMap` iteration of the source is embedded as a
sum over the distinct keys, which is exact because addition of the
per-bin contributions is commutative. -/
noncomputable def compute_genetic_entropy
    (genome_a : List ℚ) (mass : List ℚ) (bins : ℕ) : ℝ :=
  if genome_a.length < 4 ∨ mass = [] then 0
  else
    let l := binnedLive bins (toCells genome_a mass)
    let total := totalLiveMass l
    if total < 1 / 1000000 then 0
    else
      ((histKeys l).map fun key =>
        let p := binMass l key / total
        if 1 / 1000000000 < p then -((p : ℝ) * Real.logb 2 (p : ℝ)) else 0).sum

/-- Genome tuple `(r, mu, sigma, agg)` collected by `detect_species`. -/
def genomeOf (c : Cell) : ℚ × ℚ × ℚ × ℚ := (c.r, c.mu, c.sigma, c.agg)

/-- `genome_distance`: Euclidean distance in normalized genome space. -/
noncomputable def genome_distance (a b : ℚ × ℚ × ℚ × ℚ) : ℝ :=
  Real.sqrt (((a.1 / 16 - b.1 / 16) ^ 2 + (a.2.1 - b.2.1) ^ 2 +
    (a.2.2.1 / (3 / 10) - b.2.2.1 / (3 / 10)) ^ 2 +
    (a.2.2.2 - b.2.2.2) ^ 2 : ℚ) : ℝ)

/-- The genomes of pixels with significant mass (`m > 0.05`), in pixel
order (`detect_species`, lines 247–258). -/
def liveGenomes (cells : List Cell) : List (ℚ × ℚ × ℚ × ℚ) :=
  cells.filterMap fun c =>
    if 1 / 20 < c.m then some (genomeOf c) else none

open Classical in
/-- The greedy de-duplication loop of `detect_species` (lines 266–284):
a genome is appended when its distance to every accepted genome is at
least the threshold `0.15`; the scan stops as soon as the accepted list
reaches `max_species`. -/
noncomputable def addUnique (uniq : List (ℚ × ℚ × ℚ × ℚ))
    (gs : List (ℚ × ℚ × ℚ × ℚ)) (max_species : ℕ) : List (ℚ × ℚ × ℚ × ℚ) :=
  match gs with
  | [] => uniq
  | g :: rest =>
      let uniq2 :=
        if ∀ e ∈ uniq, ¬ genome_distance g e < 3 / 20 then uniq ++ [g] else uniq
      if max_species ≤ uniq2.length then uniq2
      else addUnique uniq2 rest max_species

/-- `detect_species` from `metrics.rs`: returns the raw count of
significant-mass genomes when it is below `max_species`, otherwise the
size of the greedily de-duplicated genome list. -/
noncomputable def detect_species
    (genome_a : List ℚ) (mass : List ℚ) (max_species : ℕ) : ℕ :=
  if genome_a.length < 4 ∨ mass = [] then 0
  else
    let genomes := liveGenomes (toCells genome_a mass)
    if genomes.length < max_species then genomes.length
    else (addUnique [] genomes max_species).length

/-- Live-pixel count of `SimDiagnostics::from_snapshot` (line 58:
`m > 0.01`). -/
def livePixels (mass : List ℚ) : ℕ :=
  (mass.filter fun m => 1 / 100 < m).length

/-- `total_mass` of `SimDiagnostics::from_snapshot` (lines 54–56): the f64
accumulation of the mass of ALL pixels, live or dead. -/
def totalMass (mass : List ℚ) : ℚ := mass.sum

/-- `avg_mass_live` of `SimDiagnostics::from_snapshot` (line 68):
`total_mass / live_pixels` when there is a live pixel, else 0.  Note that
the numerator is the total over all pixels. -/
def avg_mass_live (mass : List ℚ) : ℚ :=
  if 0 < livePixels mass then totalMass mass / livePixels mass else 0

/-! ## Runtime parameters (`config.rs`) -/

/-- Perturbation types for ecological experiments. -/
inductive PerturbationType where
  | none
  | drought
  | nutrientPulse
  | massStorm
  | mutationBurst
  deriving Repr, DecidableEq

/-- `SimulationParams` from `config.rs`; f32 fields as `ℚ`, u32/u64 fields
as `ℕ`. -/
structure SimulationParams where
  paused : Bool
  simulation_speed : ℕ
  time_step : ℚ
  vsync : Bool
  visualization_mode : ℕ
  show_extended_ui : Bool
  mutation_rate : ℚ
  predation_factor : ℚ
  resource_diffusion : ℚ
  resource_feed_rate : ℚ
  resource_consumption : ℚ
  mass_normalization_enabled : Bool
  mass_damping : ℚ
  target_mass_multiplier : ℚ
  radius_cost_exponent : ℚ
  agg_mobility_tradeoff : ℚ
  starvation_severity : ℚ
  perturbation_type : PerturbationType
  perturbation_intensity : ℚ
  perturbation_radius : ℚ
  perturbation_active : Bool
  perturbation_center_x : ℚ
  perturbation_center_y : ℚ
  num_seed_clusters : ℕ
  seed_cluster_size : ℚ
  initial_mass_fill : ℚ
  seed : Option ℕ
  use_fixed_seed : Bool
  fixed_seed_value : ℕ
  deriving Repr, DecidableEq

/-- `impl Default for SimulationParams`. -/
def SimulationParams.default : SimulationParams where
  paused := false
  simulation_speed := 1
  time_step := 1
  vsync := false
  visualization_mode := 0
  show_extended_ui := false
  mutation_rate := 1
  predation_factor := 1
  resource_diffusion := 8 / 100
  resource_feed_rate := 10 / 1000
  resource_consumption := 8 / 100
  mass_normalization_enabled := true
  mass_damping := 3 / 10
  target_mass_multiplier := 1
  radius_cost_exponent := 3 / 2
  agg_mobility_tradeoff := 3 / 10
  starvation_severity := 5 / 100
  perturbation_type := .none
  perturbation_intensity := 1 / 2
  perturbation_radius := 15 / 100
  perturbation_active := false
  perturbation_center_x := 1 / 2
  perturbation_center_y := 1 / 2
  num_seed_clusters := 30
  seed_cluster_size := 1
  initial_mass_fill := 15 / 100
  seed := Option.none
  use_fixed_seed := false
  fixed_seed_value := 42

/-- `SimulationParams::effective_seed`. -/
def SimulationParams.effective_seed (p : SimulationParams) : Option ℕ :=
  if p.use_fixed_seed then some p.fixed_seed_value else p.seed

/-! ## Per-step compute dispatches (`app.rs` / `headless.rs`)

`encode_simulation_passes` (identical in `app.rs` lines 870–932 and
`headless.rs` lines 145–202) records the compute passes encoded for one
simulation step.  It takes no simulation parameters; the step loops in
`App::update`, `run_headless` and `main.rs` call it (or encode the same
five passes inline) for every step regardless of the configuration. -/

/-- One compute dispatch of the simulation step. -/
inductive Pass where
  | velocity
  | evolution
  | resources
  | sumMass
  | normalize
  deriving Repr, DecidableEq

/-- `encode_simulation_passes`: the five passes, in command-stream
order. -/
def encode_simulation_passes : List Pass :=
  [.velocity, .evolution, .resources, .sumMass, .normalize]

/-- The dispatches issued for one simulation step under a given parameter
set: the step loops invoke `encode_simulation_passes` unconditionally. -/
def stepPasses (_params : SimulationParams) : List Pass :=
  encode_simulation_passes

/-! ## World generation (`world.rs`, `WorldState::new`, CPU phase)

The CPU-side initialization (lines 128–414) is embedded as a pure
function of a random stream `u : ℕ → ℝ`: each call of the Rust RNG
consumes the next stream element, a unit draw in `[0, 1)`;
`gen_range(lo..hi)` maps it affinely into the range (taking the floor
for integer ranges).  f32 arithmetic is idealized over `ℝ`.  The per-cell
arrays are modelled as functions from the pixel index; the GPU buffer
creation that follows (device upload) is outside the data model. -/

/-- A GenomeA value `[r, mu, sigma, agg]`. -/
structure G4 where
  r : ℝ
  mu : ℝ
  sigma : ℝ
  agg : ℝ

/-- CPU-side generation state: the five arrays under construction plus
the RNG position. -/
structure GenSt where
  mass : ℕ → ℝ
  energy : ℕ → ℝ
  ga : ℕ → G4
  gb : ℕ → ℝ
  resource : ℕ → ℝ
  k : ℕ

/-- A random stream delivers unit draws in `[0, 1)`. -/
def ValidStream (u : ℕ → ℝ) : Prop := ∀ n, 0 ≤ u n ∧ u n < 1

/-- Consume one unit draw (`rng.gen::<f32>()`). -/
noncomputable def draw (u : ℕ → ℝ) (st : GenSt) : ℝ × GenSt :=
  (u st.k, { st with k := st.k + 1 })

/-- `rng.gen_range(lo..hi)` on floats. -/
noncomputable def gen_range (u : ℕ → ℝ) (lo hi : ℝ) (st : GenSt) : ℝ × GenSt :=
  let (x, st) := draw u st
  (lo + x * (hi - lo), st)

/-- `rng.gen_range(lo..hi)` on integers. -/
noncomputable def gen_range_int (u : ℕ → ℝ) (lo hi : ℤ) (st : GenSt) : ℤ × GenSt :=
  let (x, st) := draw u st
  (lo + ⌊x * ((hi - lo : ℤ) : ℝ)⌋, st)

/-- Rust f32-to-i32 `as` cast: truncation toward zero. -/
noncomputable def rtrunc (x : ℝ) : ℤ := if x < 0 then ⌈x⌉ else ⌊x⌋

/-- The inclusive range `lo..=hi` as a list. -/
def intRangeIncl (lo hi : ℤ) : List ℤ :=
  (List.range (hi + 1 - lo).toNat).map fun i => lo + i

/-- Toroidal pixel index (`world.rs` lines 154–158).  Rust's truncating
`%` followed by `+ w` and a second `%` yields the same value as the same
expression over Euclidean `%`, namely the representative in `[0, w)`. -/
def pixel_idx (px py : ℤ) : ℕ :=
  let w : ℤ := 512
  let h : ℤ := 512
  let wx := ((px % w) + w) % w
  let wy := ((py % h) + h) % h
  (wy * 512 + wx).toNat

/-- `stamp` (lines 161–174): blend mass (clamped at 1), overwrite energy,
genome and mutation rate at one pixel. -/
noncomputable def stamp (idx : ℕ) (m e : ℝ) (genome : G4) (mut_rate : ℝ) (st : GenSt) : GenSt :=
  { st with
    mass := Function.update st.mass idx (min (st.mass idx + m) 1)
    energy := Function.update st.energy idx e
    ga := Function.update st.ga idx genome
    gb := Function.update st.gb idx mut_rate }

/-- `random_genome` (lines 177–184). -/
noncomputable def random_genome (u : ℕ → ℝ) (st : GenSt) : (G4 × ℝ) × GenSt :=
  let (gene_r, st) := gen_range u 3 9 st
  let (gene_mu, st) := gen_range u (12 / 100) (30 / 100) st
  let (gene_sigma, st) := gen_range u (4 / 100) (18 / 100) st
  let (gene_agg, st) := gen_range u 0 (6 / 10) st
  let (gene_mut, st) := gen_range u (5 / 10000) (8 / 1000) st
  ((⟨gene_r, gene_mu, gene_sigma, gene_agg⟩, gene_mut), st)

/-- Pattern 1: one Gaussian cluster (lines 188–205). -/
noncomputable def gaussianCluster (u : ℕ → ℝ) (st : GenSt) : GenSt :=
  let (cx, st) := gen_range_int u 0 512 st
  let (cy, st) := gen_range_int u 0 512 st
  let (radiusI, st) := gen_range_int u 5 15 st
  let radius : ℝ := radiusI
  let ((genome, mut_rate), st) := random_genome u st
  let ir := rtrunc radius + 1
  (intRangeIncl (-ir) ir).foldl (fun st dy =>
    (intRangeIncl (-ir) ir).foldl (fun st dx =>
      let dist := Real.sqrt ((dx * dx + dy * dy : ℤ) : ℝ)
      if radius < dist then st
      else
        let falloff := Real.exp (-dist * dist / (2 * radius * radius * (25 / 100)))
        stamp (pixel_idx (cx + dx) (cy + dy)) falloff (1 / 2) genome mut_rate st) st) st

/-- Pattern 2: one ring / annulus (lines 209–232). -/
noncomputable def ringCluster (u : ℕ → ℝ) (st : GenSt) : GenSt :=
  let (cx, st) := gen_range_int u 0 512 st
  let (cy, st) := gen_range_int u 0 512 st
  let (outerI, st) := gen_range_int u 10 25 st
  let outer_r : ℝ := outerI
  let (frac, st) := gen_range u (4 / 10) (7 / 10) st
  let inner_r := outer_r * frac
  let thickness := max (outer_r - inner_r) 2
  let ((genome, mut_rate), st) := random_genome u st
  let ir := rtrunc outer_r + 1
  (intRangeIncl (-ir) ir).foldl (fun st dy =>
    (intRangeIncl (-ir) ir).foldl (fun st dx =>
      let dist := Real.sqrt ((dx * dx + dy * dy : ℤ) : ℝ)
      if outer_r < dist ∨ dist < inner_r then st
      else
        let edge_outer :=
          1 - max ((dist - outer_r + thickness * (3 / 10)) / (thickness * (3 / 10))) 0
        let edge_inner := min ((dist - inner_r) / (thickness * (3 / 10))) 1
        let m := min (max (edge_outer * edge_inner) 0) 1
        if m < 1 / 100 then st
        else
          stamp (pixel_idx (cx + dx) (cy + dy)) (m * (8 / 10)) (6 / 10) genome mut_rate st)
      st) st

/-- Pattern 3: one line / filament (lines 236–265). -/
noncomputable def lineCluster (u : ℕ → ℝ) (st : GenSt) : GenSt :=
  let (x0, st) := gen_range_int u 0 512 st
  let (y0, st) := gen_range_int u 0 512 st
  let (angle, st) := gen_range u 0 (2 * Real.pi) st
  let (lengthI, st) := gen_range_int u 30 80 st
  let length : ℝ := lengthI
  let (half_width, st) := gen_range u (3 / 2) 4 st
  let ((genome, mut_rate), st) := random_genome u st
  let (curvature, st) := gen_range u (-(2 / 100)) (2 / 100) st
  let steps := rtrunc (length * 2)
  (intRangeIncl 0 steps).foldl (fun st s =>
    let t := (s : ℝ) / (steps : ℝ)
    let a := angle + curvature * t * length
    let lx := (x0 : ℝ) + Real.cos a * t * length
    let ly := (y0 : ℝ) + Real.sin a * t * length
    let hw := rtrunc half_width + 1
    (intRangeIncl (-hw) hw).foldl (fun st dy =>
      (intRangeIncl (-hw) hw).foldl (fun st dx =>
        let d := Real.sqrt ((dx * dx + dy * dy : ℤ) : ℝ)
        if half_width < d then st
        else
          let m := max (1 - d / half_width) 0
          stamp (pixel_idx (rtrunc lx + dx) (rtrunc ly + dy)) (m * (7 / 10)) (1 / 2)
            genome mut_rate st) st) st) st

/-- Pattern 4: one spiral (lines 269–302). -/
noncomputable def spiralCluster (u : ℕ → ℝ) (st : GenSt) : GenSt :=
  let (cxI, st) := gen_range_int u 0 512 st
  let cx : ℝ := cxI
  let (cyI, st) := gen_range_int u 0 512 st
  let cy : ℝ := cyI
  let (armsI, st) := gen_range_int u 2 5 st
  let (max_angle, st) := gen_range u 3 6 st
  let (scale, st) := gen_range u 15 35 st
  let (arm_width, st) := gen_range u (3 / 2) (7 / 2) st
  let ((genome, mut_rate), st) := random_genome u st
  let steps := rtrunc (max_angle * scale * 2)
  (List.range armsI.toNat).foldl (fun st arm =>
    let arm_offset := 2 * Real.pi * (arm : ℝ) / (armsI.toNat : ℝ)
    (intRangeIncl 0 steps).foldl (fun st s =>
      let t := (s : ℝ) / (steps : ℝ)
      let theta := t * max_angle + arm_offset
      let r := t * scale
      let sx := cx + Real.cos theta * r
      let sy := cy + Real.sin theta * r
      let hw := rtrunc arm_width + 1
      (intRangeIncl (-hw) hw).foldl (fun st dy =>
        (intRangeIncl (-hw) hw).foldl (fun st dx =>
          let d := Real.sqrt ((dx * dx + dy * dy : ℤ) : ℝ)
          if arm_width < d then st
          else
            let m := (1 - d / arm_width) * (1 - t * (3 / 10))
            if m < 1 / 100 then st
            else
              stamp (pixel_idx (rtrunc sx + dx) (rtrunc sy + dy)) (m * (6 / 10))
                (55 / 100) genome mut_rate st) st) st) st) st

/-- Pattern 5: one scattered noise patch (lines 306–326); note the two
extra draws per in-disk cell (acceptance test, then the mass factor for
accepted cells). -/
noncomputable def noisePatch (u : ℕ → ℝ) (st : GenSt) : GenSt :=
  let (cx, st) := gen_range_int u 0 512 st
  let (cy, st) := gen_range_int u 0 512 st
  let (patch_r, st) := gen_range_int u 15 40 st
  let (density, st) := gen_range u (5 / 100) (15 / 100) st
  let ((genome, mut_rate), st) := random_genome u st
  (intRangeIncl (-patch_r) patch_r).foldl (fun st dy =>
    (intRangeIncl (-patch_r) patch_r).foldl (fun st dx =>
      let dist := Real.sqrt ((dx * dx + dy * dy : ℤ) : ℝ)
      if (patch_r : ℝ) < dist then st
      else
        let (x, st) := draw u st
        if density < x then st
        else
          let falloff := 1 - dist / (patch_r : ℝ)
          let (mf, st) := gen_range u (1 / 10) (1 / 2) st
          let m := falloff * mf
          stamp (pixel_idx (cx + dx) (cy + dy)) m (4 / 10) genome mut_rate st) st) st

/-- Pattern 6: one apex-predator nest (lines 330–352). -/
noncomputable def predatorNest (u : ℕ → ℝ) (st : GenSt) : GenSt :=
  let (cx, st) := gen_range_int u 0 512 st
  let (cy, st) := gen_range_int u 0 512 st
  let (radiusI, st) := gen_range_int u 3 7 st
  let radius : ℝ := radiusI
  let (gene_r, st) := gen_range u 4 7 st
  let (gene_mu, st) := gen_range u (15 / 100) (25 / 100) st
  let (gene_sigma, st) := gen_range u (6 / 100) (12 / 100) st
  let (gene_agg, st) := gen_range u (7 / 10) 1 st
  let (gene_mut, st) := gen_range u (1 / 1000) (5 / 1000) st
  let genome : G4 := ⟨gene_r, gene_mu, gene_sigma, gene_agg⟩
  let ir := rtrunc radius + 1
  (intRangeIncl (-ir) ir).foldl (fun st dy =>
    (intRangeIncl (-ir) ir).foldl (fun st dx =>
      let dist := Real.sqrt ((dx * dx + dy * dy : ℤ) : ℝ)
      if radius < dist then st
      else
        let m := Real.exp (-dist * dist / (2 * radius * radius * (3 / 10)))
        stamp (pixel_idx (cx + dx) (cy + dy)) (m * (9 / 10)) (8 / 10) genome gene_mut st)
      st) st

/-- One fertile oasis (lines 367–381): nutrient boost, capped at 1. -/
noncomputable def oasis (u : ℕ → ℝ) (st : GenSt) : GenSt :=
  let (cx, st) := gen_range_int u 0 512 st
  let (cy, st) := gen_range_int u 0 512 st
  let (radiusI, st) := gen_range_int u 20 60 st
  let radius : ℝ := radiusI
  let ir := rtrunc radius + 1
  (intRangeIncl (-ir) ir).foldl (fun st dy =>
    (intRangeIncl (-ir) ir).foldl (fun st dx =>
      let dist := Real.sqrt ((dx * dx + dy * dy : ℤ) : ℝ)
      if radius < dist then st
      else
        let boost := (3 / 10) * Real.exp (-dist * dist / (2 * radius * radius * (25 / 100)))
        let idx := pixel_idx (cx + dx) (cy + dy)
        let res := Function.update st.resource idx (min (st.resource idx + boost) 1)
        { st with resource := res }) st) st

/-- One desert zone (lines 384–399): nutrient reduction, floored at
0.05. -/
noncomputable def desert (u : ℕ → ℝ) (st : GenSt) : GenSt :=
  let (cx, st) := gen_range_int u 0 512 st
  let (cy, st) := gen_range_int u 0 512 st
  let (radiusI, st) := gen_range_int u 25 50 st
  let radius : ℝ := radiusI
  let ir := rtrunc radius + 1
  (intRangeIncl (-ir) ir).foldl (fun st dy =>
    (intRangeIncl (-ir) ir).foldl (fun st dx =>
      let dist := Real.sqrt ((dx * dx + dy * dy : ℤ) : ℝ)
      if radius < dist then st
      else
        let reduction := (1 / 2) * Real.exp (-dist * dist / (2 * radius * radius * (25 / 100)))
        let idx := pixel_idx (cx + dx) (cy + dy)
        let res := Function.update st.resource idx (max (st.resource idx - reduction) (5 / 100))
        { st with resource := res }) st) st

/-- Sinusoidal gradient bands (lines 402–411). -/
noncomputable def gradientBands (u : ℕ → ℝ) (st : GenSt) : GenSt :=
  let (fx, st) := gen_range u 1 4 st
  let freq_x := fx * (2 * Real.pi) / 512
  let (fy, st) := gen_range u 1 4 st
  let freq_y := fy * (2 * Real.pi) / 512
  let (phase, st) := gen_range u 0 (2 * Real.pi) st
  (List.range 512).foldl (fun st py =>
    (List.range 512).foldl (fun st px =>
      let idx : ℕ := py * 512 + px
      let wave := Real.sin ((px : ℝ) * freq_x + (py : ℝ) * freq_y + phase) * (1 / 10)
      let res := Function.update st.resource idx (min (max (st.resource idx + wave) (5 / 100)) 1)
      { st with resource := res }) st) st

/-- Initial CPU arrays (lines 133–140): zero mass, energy 0.5, the safe
default genome `[5, 0.5, 0.15, 0]`, mutation rate 0.01, full
nutrients. -/
noncomputable def initGenSt : GenSt where
  mass := fun _ => 0
  energy := fun _ => 1 / 2
  ga := fun _ => ⟨5, 1 / 2, 15 / 100, 0⟩
  gb := fun _ => 1 / 100
  resource := fun _ => 1
  k := 0

/-- The full CPU initialization of `WorldState::new`: 30 Gaussian
clusters, 8 rings, 6 lines, 4 spirals, 10 noise patches, 5 predator
nests, then the resource landscape (baseline 0.7, 12 oases, 6 deserts,
gradient bands). -/
noncomputable def worldGenerate (u : ℕ → ℝ) : GenSt :=
  let st := initGenSt
  let st := (List.range 30).foldl (fun st _ => gaussianCluster u st) st
  let st := (List.range 8).foldl (fun st _ => ringCluster u st) st
  let st := (List.range 6).foldl (fun st _ => lineCluster u st) st
  let st := (List.range 4).foldl (fun st _ => spiralCluster u st) st
  let st := (List.range 10).foldl (fun st _ => noisePatch u st) st
  let st := (List.range 5).foldl (fun st _ => predatorNest u st) st
  let st := { st with resource := fun _ => 7 / 10 }
  let st := (List.range 12).foldl (fun st _ => oasis u st) st
  let st := (List.range 6).foldl (fun st _ => desert u st) st
  gradientBands u st

/-- Modelled from the spec: the missing seeded constructor.
`WorldState::new_with_seed` is called from `app.rs` (line 481) with
`sim_params.effective_seed()` but its definition is not among the
reviewed sources.  Per the spec, "All randomness is drawn from one RNG
instance so that a supplied seed fully determines the initial field":
the RNG stream is a deterministic pure function of the seed.  The
concrete stream below is one such function (a 64-bit LCG mapped to unit
draws); any deterministic choice satisfies the spec sentence. -/
def lcgNext (s : ℕ) : ℕ := (6364136223846793005 * s + 1442695040888963407) % 2 ^ 64

/-- Modelled from the spec: the deterministic unit-draw stream obtained
from a seed. -/
noncomputable def seedStream (seed : ℕ) (n : ℕ) : ℝ :=
  ((lcgNext^[n + 1] seed % 2 ^ 32 : ℕ) : ℝ) / 2 ^ 32

/-- Modelled from the spec: world generation as invoked on restart
(`app.rs` lines 480–481).  With `Some seed` the generator consumes the
deterministic seeded stream; with `None` it consumes the ambient
`thread_rng` draws (as `WorldState::new` does). -/
noncomputable def new_with_seed (seed : Option ℕ) (ambient : ℕ → ℝ) : GenSt :=
  worldGenerate (match seed with | some s => seedStream s | none => ambient)

/-! ## Auxiliary statement material -/

/-- The σ-safety invariant of the data model: every cell's GenomeA σ
component is strictly positive. -/
def SigmaPos (st : GenSt) : Prop := ∀ idx, 0 < (st.ga idx).sigma

/-- Flatten a cell list back into the flat GenomeA array (4 floats per
pixel), the layout the diagnostics functions consume. -/
def gaFlat (cells : List Cell) : List ℚ :=
  (cells.map fun c => [c.r, c.mu, c.sigma, c.agg]).flatten

/-- The mass array of a cell list. -/
def massFlat (cells : List Cell) : List ℚ := cells.map Cell.m

/-- A snapshot holding a single 3×3 stamped block in a row-major grid:
three runs of 3 consecutive `live` cells, separated by `gap₁` and `gap₂`
`dead` cells (509 on a 512-wide grid for a vertically contiguous block),
padded with `pre` and `post` dead cells. -/
def clusterWorld (pre gap₁ gap₂ post : ℕ) (live dead : Cell) : List Cell :=
  List.replicate pre dead ++ List.replicate 3 live ++
    List.replicate gap₁ dead ++ List.replicate 3 live ++
    List.replicate gap₂ dead ++ List.replicate 3 live ++
    List.replicate post dead

/-! # Theorems -/

/-! ## Snapshot codec lemmas -/

theorem leBytes_length (k v : ℕ) : (leBytes k v).length = k := by
  simp [leBytes]

theorem leBytes_succ (k v : ℕ) :
    leBytes (k + 1) v = v % 256 :: leBytes k (v / 256) := by
  simp only [leBytes, List.range_succ_eq_map, List.map_cons, List.map_map]
  congr 1
  · simp
  · apply List.map_congr_left
    intro i _
    simp only [Function.comp_apply, pow_succ]
    rw [Nat.div_div_eq_div_mul, mul_comm (256 ^ i) 256, ← Nat.div_div_eq_div_mul]

theorem leVal_leBytes {k v : ℕ} (h : v < 256 ^ k) : leVal (leBytes k v) = v := by
  induction k generalizing v with
  | zero =>
      simp only [pow_zero, Nat.lt_one_iff] at h
      simp [leBytes, leVal, h]
  | succ k ih =>
      rw [leBytes_succ]
      have hdiv : v / 256 < 256 ^ k := by
        rw [Nat.div_lt_iff_lt_mul (by norm_num)]
        calc v < 256 ^ (k + 1) := h
        _ = 256 ^ k * 256 := by ring
      simp only [leVal, List.foldr_cons] at *
      rw [ih hdiv]
      omega

theorem readExact_append {k : ℕ} {l rest : List ℕ} (h : l.length = k) :
    readExact k (l ++ rest) = .ok (l, rest) := by
  subst h
  simp [readExact, List.take_left, List.drop_left]

theorem ok_bind {ε α β : Type} (a : α) (f : α → Except ε β) :
    (Except.ok a >>= f : Except ε β) = f a := rfl

theorem bytesToWords_flatten {vs : List ℕ} (h : ∀ v ∈ vs, v < 2 ^ 32) :
    bytesToWords ((vs.map (leBytes 4)).flatten) = vs := by
  induction vs with
  | nil => rfl
  | cons v vs ih =>
      have hv : v < 2 ^ 32 := h v (by simp)
      have hrec := ih fun w hw => h w (by simp [hw])
      have h4 : leBytes 4 v =
          v % 256 :: v / 256 % 256 :: v / 256 / 256 % 256 :: v / 256 / 256 / 256 % 256 :: [] := by
        rw [show (4 : ℕ) = 3 + 1 from rfl, leBytes_succ, show (3 : ℕ) = 2 + 1 from rfl,
          leBytes_succ, show (2 : ℕ) = 1 + 1 from rfl, leBytes_succ,
          show (1 : ℕ) = 0 + 1 from rfl, leBytes_succ]
        rfl
      have hval : leVal (leBytes 4 v) = v := leVal_leBytes (by norm_num at hv ⊢; omega)
      rw [h4] at hval
      rw [List.map_cons, List.flatten_cons, h4]
      simp only [List.cons_append, List.nil_append]
      rw [bytesToWords, hrec, hval]

theorem flatten_map_leBytes_length (vs : List ℕ) :
    ((vs.map (leBytes 4)).flatten).length = vs.length * 4 := by
  induction vs with
  | nil => rfl
  | cons v vs ih => simp [List.flatten_cons, ih, leBytes_length]; ring

theorem read_vec_f32_append {vs rest : List ℕ}
    (hv : ∀ v ∈ vs, v < 2 ^ 32) (hl : vs.length < 2 ^ 64) :
    read_vec_f32 (write_vec_f32 vs ++ rest) = .ok (vs, rest) := by
  have h8 : leVal (leBytes 8 vs.length) = vs.length :=
    leVal_leBytes (by norm_num at hl ⊢; omega)
  simp only [read_vec_f32, write_vec_f32, List.append_assoc]
  rw [readExact_append (leBytes_length 8 vs.length), ok_bind]
  simp only [h8]
  rw [readExact_append (flatten_map_leBytes_length vs), ok_bind]
  simp [bytesToWords_flatten hv, pure, Except.pure]

theorem load_save_roundtrip_aux {s : BufferSnapshot} (h : WFSnapshot s) :
    load_snapshot (save_snapshot s) = .ok s := by
  obtain ⟨h1, h2, h3, h4, h5, l1, l2, l3, l4, l5⟩ := h
  simp only [save_snapshot, load_snapshot, List.append_assoc]
  rw [readExact_append (by rfl), ok_bind]
  rw [if_neg (by simp)]
  simp only [read_u32, readExact_append (leBytes_length 4 WORLD_WIDTH), ok_bind,
    readExact_append (leBytes_length 4 WORLD_HEIGHT),
    leVal_leBytes (show WORLD_WIDTH < 256 ^ 4 by norm_num [WORLD_WIDTH]),
    leVal_leBytes (show WORLD_HEIGHT < 256 ^ 4 by norm_num [WORLD_HEIGHT]),
    pure, Except.pure]
  rw [if_neg (by simp)]
  rw [show write_vec_f32 s.resource = write_vec_f32 s.resource ++ ([] : List ℕ) by simp]
  simp only [read_vec_f32_append h1 l1, ok_bind, read_vec_f32_append h2 l2,
    read_vec_f32_append h3 l3, read_vec_f32_append h4 l4, read_vec_f32_append h5 l5]

/-- C2: for every `BufferSnapshot` (any contents of the five f32 arrays,
i.e. any 32-bit patterns and any in-format lengths), loading the file
produced by `save_snapshot` yields a snapshot whose five arrays are
bit-for-bit equal to the originals. -/
theorem snapshot_roundtrip (s : BufferSnapshot) (h : WFSnapshot s) :
    load_snapshot (save_snapshot s) = .ok s :=
  load_save_roundtrip_aux h

theorem snapshot_roundtrip_witness :
    load_snapshot (save_snapshot ⟨[0, 1, 4294967295], [5], [1, 2, 3, 4], [7], [9]⟩) =
      .ok ⟨[0, 1, 4294967295], [5], [1, 2, 3, 4], [7], [9]⟩ :=
  snapshot_roundtrip ⟨[0, 1, 4294967295], [5], [1, 2, 3, 4], [7], [9]⟩ (by decide)

/-- C6: `load_snapshot` fails with a typed error and produces no snapshot
data both (a) when the first 8 bytes differ from the magic tag
`"EVOSNP01"` (the hard parse error) and (b) when the stored width/height
differ from the live grid's `WORLD_WIDTH`/`WORLD_HEIGHT` (the recoverable
dimension-mismatch error); an `Except.error` result carries no partial
snapshot by construction. -/
theorem load_snapshot_rejects (bytes : List ℕ) (w h : ℕ) (rest : List ℕ) :
    (8 ≤ bytes.length → bytes.take 8 ≠ MAGIC →
       load_snapshot bytes = .error .badMagic) ∧
    (w < 2 ^ 32 → h < 2 ^ 32 → (w ≠ WORLD_WIDTH ∨ h ≠ WORLD_HEIGHT) →
       load_snapshot (MAGIC ++ leBytes 4 w ++ leBytes 4 h ++ rest) =
         .error (.dimMismatch w h)) := by
  constructor
  · intro hlen hmagic
    simp only [load_snapshot, readExact, if_neg (show ¬ bytes.length < 8 by omega), ok_bind]
    rw [if_pos hmagic]
    rfl
  · intro hw hh hne
    simp only [load_snapshot, List.append_assoc]
    rw [readExact_append (by rfl), ok_bind]
    rw [if_neg (by simp)]
    simp only [read_u32, readExact_append (leBytes_length 4 w), ok_bind,
      readExact_append (leBytes_length 4 h),
      leVal_leBytes (show w < 256 ^ 4 by norm_num at hw ⊢; omega),
      leVal_leBytes (show h < 256 ^ 4 by norm_num at hh ⊢; omega),
      pure, Except.pure]
    rw [if_pos hne]
    rfl

theorem load_snapshot_rejects_witness :
    load_snapshot [0, 0, 0, 0, 0, 0, 0, 0] = .error .badMagic ∧
    load_snapshot (MAGIC ++ leBytes 4 1024 ++ leBytes 4 1024 ++ []) =
      .error (.dimMismatch 1024 1024) :=
  ⟨(load_snapshot_rejects [0, 0, 0, 0, 0, 0, 0, 0] 0 0 []).1 (by decide) (by decide),
   (load_snapshot_rejects [] 1024 1024 []).2 (by decide) (by decide) (by decide)⟩

/-- C10: `load_snapshot` never validates the five length-prefixed arrays
against the grid dimensions: for every file with the correct magic tag
and matching width/height, the arrays load with exactly the lengths the
per-array 64-bit count prefixes declare — the statement imposes no
relation between the array lengths and `WORLD_WIDTH * WORLD_HEIGHT`
(or `4 * WORLD_WIDTH * WORLD_HEIGHT` for `genome_a`). -/
theorem load_snapshot_ignores_array_lengths (a b c d e : List ℕ)
    (ha : ∀ v ∈ a, v < 2 ^ 32) (hb : ∀ v ∈ b, v < 2 ^ 32)
    (hc : ∀ v ∈ c, v < 2 ^ 32) (hd : ∀ v ∈ d, v < 2 ^ 32)
    (he : ∀ v ∈ e, v < 2 ^ 32)
    (la : a.length < 2 ^ 64) (lb : b.length < 2 ^ 64) (lc : c.length < 2 ^ 64)
    (ld : d.length < 2 ^ 64) (le : e.length < 2 ^ 64) :
    load_snapshot (MAGIC ++ leBytes 4 WORLD_WIDTH ++ leBytes 4 WORLD_HEIGHT ++
        write_vec_f32 a ++ write_vec_f32 b ++ write_vec_f32 c ++
        write_vec_f32 d ++ write_vec_f32 e) =
      .ok ⟨a, b, c, d, e⟩ ∧
    (∀ s, load_snapshot (MAGIC ++ leBytes 4 WORLD_WIDTH ++ leBytes 4 WORLD_HEIGHT ++
        write_vec_f32 a ++ write_vec_f32 b ++ write_vec_f32 c ++
        write_vec_f32 d ++ write_vec_f32 e) = .ok s → s.mass.length = a.length) := by
  have base := load_save_roundtrip_aux (s := ⟨a, b, c, d, e⟩)
    ⟨ha, hb, hc, hd, he, la, lb, lc, ld, le⟩
  refine ⟨base, fun s hs => ?_⟩
  rw [show (MAGIC ++ leBytes 4 WORLD_WIDTH ++ leBytes 4 WORLD_HEIGHT ++
      write_vec_f32 a ++ write_vec_f32 b ++ write_vec_f32 c ++
      write_vec_f32 d ++ write_vec_f32 e) =
    save_snapshot ⟨a, b, c, d, e⟩ from rfl, base] at hs
  cases hs
  rfl

theorem load_snapshot_ignores_array_lengths_witness :
    load_snapshot (MAGIC ++ leBytes 4 WORLD_WIDTH ++ leBytes 4 WORLD_HEIGHT ++
        write_vec_f32 [3, 1] ++ write_vec_f32 [] ++ write_vec_f32 [1, 2, 3] ++
        write_vec_f32 [] ++ write_vec_f32 []) =
      .ok ⟨[3, 1], [], [1, 2, 3], [], []⟩ ∧
    (2 : ℕ) ≠ WORLD_WIDTH * WORLD_HEIGHT :=
  ⟨(load_snapshot_ignores_array_lengths [3, 1] [] [1, 2, 3] [] []
      (by decide) (by decide) (by decide) (by decide) (by decide)
      (by decide) (by decide) (by decide) (by decide) (by decide)).1,
   by decide⟩

/-! ## Diagnostics lemmas -/

theorem toCells_gaFlat (cells : List Cell) :
    toCells (gaFlat cells) (massFlat cells) = cells := by
  induction cells with
  | nil => rfl
  | cons c cs ih =>
      simp only [gaFlat, massFlat, List.map_cons, List.flatten_cons, List.cons_append,
        List.nil_append, toCells]
      simpa [gaFlat, massFlat] using ih

theorem massFlat_length (cells : List Cell) : (massFlat cells).length = cells.length := by
  simp [massFlat]

theorem gaFlat_length (cells : List Cell) : (gaFlat cells).length = 4 * cells.length := by
  induction cells with
  | nil => rfl
  | cons c cs ih =>
      simp only [gaFlat, List.map_cons, List.flatten_cons, List.length_append] at *
      simp [ih]
      ring

theorem filterMap_replicate_none {α β : Type} {f : α → Option β} {a : α}
    (h : f a = none) (k : ℕ) : (List.replicate k a).filterMap f = [] := by
  induction k with
  | zero => rfl
  | succ k ih => simp [List.replicate_succ, List.filterMap_cons, h, ih]

theorem filterMap_replicate_some {α β : Type} {f : α → Option β} {a : α} {b : β}
    (h : f a = some b) (k : ℕ) :
    (List.replicate k a).filterMap f = List.replicate k b := by
  induction k with
  | zero => rfl
  | succ k ih => simp [List.replicate_succ, List.filterMap_cons, h, ih]

theorem dedup_replicate {α : Type} [DecidableEq α] (a : α) (n : ℕ) :
    (List.replicate (n + 1) a).dedup = [a] := by
  induction n with
  | zero => simp
  | succ n ih =>
      rw [List.replicate_succ, List.dedup_cons_of_mem (by simp [List.mem_replicate]), ih]

theorem dedup_eq_singleton_of_all_eq {α : Type} [DecidableEq α] {l : List α} {a : α}
    (h0 : l ≠ []) (h : ∀ x ∈ l, x = a) : l.dedup = [a] := by
  have : l = List.replicate l.length a := List.eq_replicate_of_mem h
  obtain ⟨n, hn⟩ : ∃ n, l.length = n + 1 := by
    cases hl : l.length with
    | zero => exact absurd (List.length_eq_zero.mp hl) h0
    | succ n => exact ⟨n, rfl⟩
  rw [this, hn, dedup_replicate]

theorem toCells_eq_nil {ga mass : List ℚ} (h : ga.length < 4 ∨ mass = []) :
    toCells ga mass = [] := by
  rcases ga with _ | ⟨a, _ | ⟨b, _ | ⟨c, _ | ⟨d, rest⟩⟩⟩⟩ <;>
    rcases mass with _ | ⟨m, ms⟩ <;> first
      | rfl
      | (exfalso; rcases h with h | h
         · simp at h; omega
         · exact absurd h (by simp))

theorem mem_binnedLive {bins : ℕ} {cells : List Cell} {e : (ℕ × ℕ × ℕ) × ℚ}
    (h : e ∈ binnedLive bins cells) :
    ∃ c ∈ cells, ¬ c.m < 1 / 100 ∧ e = (binKey bins c, c.m) := by
  simp only [binnedLive, List.mem_filterMap] at h
  obtain ⟨c, hc, he⟩ := h
  by_cases hm : c.m < 1 / 100
  · rw [if_pos hm] at he
    cases he
  · rw [if_neg hm] at he
    exact ⟨c, hc, hm, by cases he; rfl⟩

theorem binnedLive_ne_nil_conditions {ga mass : List ℚ} {bins : ℕ}
    (h : binnedLive bins (toCells ga mass) ≠ []) :
    ¬ (ga.length < 4 ∨ mass = []) := by
  intro hcond
  exact h (by rw [toCells_eq_nil hcond]; rfl)

theorem totalLiveMass_lower {bins : ℕ} {cells : List Cell}
    {e : (ℕ × ℕ × ℕ) × ℚ} (he : e ∈ binnedLive bins cells) :
    1 / 100 ≤ totalLiveMass (binnedLive bins cells) := by
  obtain ⟨c, _, hm, rfl⟩ := mem_binnedLive he
  calc (1 / 100 : ℚ) ≤ c.m := le_of_not_lt hm
  _ ≤ totalLiveMass (binnedLive bins cells) := by
      apply List.single_le_sum (fun x hx => ?_) _ (List.mem_map_of_mem Prod.snd he)
      obtain ⟨e', he', hx⟩ := List.mem_map.mp hx
      obtain ⟨c', _, hm', rfl⟩ := mem_binnedLive he'
      simp only at hx
      rw [← hx]
      linarith [le_of_not_lt hm']

theorem entropy_zero_of_single_bin {ga mass : List ℚ} {bins : ℕ}
    (h : ∀ e₁ ∈ binnedLive bins (toCells ga mass),
         ∀ e₂ ∈ binnedLive bins (toCells ga mass), e₁.1 = e₂.1) :
    compute_genetic_entropy ga mass bins = 0 := by
  unfold compute_genetic_entropy
  by_cases h0 : ga.length < 4 ∨ mass = []
  · rw [if_pos h0]
  · rw [if_neg h0]
    cases hl : binnedLive bins (toCells ga mass) with
    | nil =>
        simp only [hl, totalLiveMass, List.map_nil, List.sum_nil]
        rw [if_pos (by norm_num)]
    | cons e rest =>
        by_cases htot : totalLiveMass (binnedLive bins (toCells ga mass)) < 1 / 1000000
        · simp only [← hl, if_pos htot]
        · simp only [← hl, if_neg htot]
          have hne : (0 : ℚ) < totalLiveMass (binnedLive bins (toCells ga mass)) := by
            have := totalLiveMass_lower (e := e) (by rw [hl]; exact List.mem_cons_self e rest)
            linarith
          have hkeys : histKeys (binnedLive bins (toCells ga mass)) = [e.1] := by
            apply dedup_eq_singleton_of_all_eq
            · rw [hl]; simp
            · intro x hx
              obtain ⟨e', he', rfl⟩ := List.mem_map.mp hx
              exact h e' he' e (by rw [hl]; exact List.mem_cons_self e rest)
          have hfull : binMass (binnedLive bins (toCells ga mass)) e.1 =
              totalLiveMass (binnedLive bins (toCells ga mass)) := by
            unfold binMass totalLiveMass
            congr 1
            apply congrArg
            apply List.filter_eq_self.mpr
            intro x hx
            simpa using h x hx e (by rw [hl]; exact List.mem_cons_self e rest)
          rw [hkeys]
          simp only [List.map_cons, List.map_nil, List.sum_cons, List.sum_nil, add_zero,
            hfull, div_self (ne_of_gt hne)]
          rw [if_pos (by norm_num)]
          push_cast
          simp [Real.logb_one]

theorem toU8_le (q : ℚ) : toU8 q ≤ 255 := by
  unfold toU8
  split
  · omega
  · exact min_le_left _ _

set_option maxRecDepth 4000 in
theorem histKeys_length_le (bins : ℕ) (cells : List Cell) :
    (histKeys (binnedLive bins cells)).length ≤ 16777216 := by
  have hnodup : (histKeys (binnedLive bins cells)).Nodup := List.nodup_dedup _
  have hsub : ∀ key ∈ histKeys (binnedLive bins cells),
      key ∈ Finset.range 256 ×ˢ (Finset.range 256 ×ˢ Finset.range 256) := by
    intro key hk
    have hmem : key ∈ (binnedLive bins cells).map Prod.fst := List.mem_dedup.mp hk
    obtain ⟨e, he, rfl⟩ := List.mem_map.mp hmem
    obtain ⟨c, _, _, rfl⟩ := mem_binnedLive he
    simp only [binKey, Finset.mem_product, Finset.mem_range]
    exact ⟨Nat.lt_succ_of_le (toU8_le _), Nat.lt_succ_of_le (toU8_le _),
      Nat.lt_succ_of_le (toU8_le _)⟩
  calc (histKeys (binnedLive bins cells)).length
      = (histKeys (binnedLive bins cells)).toFinset.card :=
        (List.toFinset_card_of_nodup hnodup).symm
    _ ≤ (Finset.range 256 ×ˢ (Finset.range 256 ×ˢ Finset.range 256)).card :=
        Finset.card_le_card fun x hx => hsub x (List.mem_toFinset.mp hx)
    _ = 16777216 := by simp [Finset.card_product]

theorem entropy_sum_formula {ga mass : List ℚ} {bins : ℕ}
    (h0 : ¬ (ga.length < 4 ∨ mass = []))
    (h1 : ¬ totalLiveMass (binnedLive bins (toCells ga mass)) < 1 / 1000000) :
    compute_genetic_entropy ga mass bins =
      ((histKeys (binnedLive bins (toCells ga mass))).map fun key =>
        let p := binMass (binnedLive bins (toCells ga mass)) key /
          totalLiveMass (binnedLive bins (toCells ga mass))
        if 1 / 1000000000 < p then -((p : ℝ) * Real.logb 2 (p : ℝ)) else 0).sum := by
  simp only [compute_genetic_entropy]
  rw [if_neg h0, if_neg h1]

theorem entropy_even_split {ga mass : List ℚ} {bins k : ℕ} (hk : 1 ≤ k)
    (hlen : (histKeys (binnedLive bins (toCells ga mass))).length = k)
    (hsplit : ∀ key ∈ histKeys (binnedLive bins (toCells ga mass)),
      binMass (binnedLive bins (toCells ga mass)) key =
        totalLiveMass (binnedLive bins (toCells ga mass)) / k) :
    compute_genetic_entropy ga mass bins = Real.logb 2 k := by
  have hKne : histKeys (binnedLive bins (toCells ga mass)) ≠ [] := by
    intro h0
    rw [h0] at hlen
    simp at hlen
    omega
  have hLne : binnedLive bins (toCells ga mass) ≠ [] := by
    intro h0
    apply hKne
    rw [h0]
    rfl
  obtain ⟨e, he⟩ := List.exists_mem_of_ne_nil _ hLne
  have htot : 1 / 100 ≤ totalLiveMass (binnedLive bins (toCells ga mass)) :=
    totalLiveMass_lower he
  have htotpos : (0 : ℚ) < totalLiveMass (binnedLive bins (toCells ga mass)) := by linarith
  have hkQ : (0 : ℚ) < k := by exact_mod_cast hk
  have hkR : (k : ℝ) ≠ 0 := by positivity
  have hkbig : k < 1000000000 := by
    have := histKeys_length_le bins (toCells ga mass)
    omega
  rw [entropy_sum_formula (binnedLive_ne_nil_conditions hLne) (by push_neg; linarith)]
  have hconst : ∀ key ∈ histKeys (binnedLive bins (toCells ga mass)),
      (let p := binMass (binnedLive bins (toCells ga mass)) key /
          totalLiveMass (binnedLive bins (toCells ga mass))
        if 1 / 1000000000 < p then -((p : ℝ) * Real.logb 2 (p : ℝ)) else 0) =
      1 / (k : ℝ) * Real.logb 2 (k : ℝ) := by
    intro key hkey
    have hp : binMass (binnedLive bins (toCells ga mass)) key /
        totalLiveMass (binnedLive bins (toCells ga mass)) = 1 / (k : ℚ) := by
      rw [hsplit key hkey]
      field_simp
      ring
    simp only [hp]
    rw [if_pos (by
      rw [div_lt_div_iff₀ (by norm_num) hkQ]
      have hcast : (k : ℚ) < 1000000000 := by exact_mod_cast hkbig
      linarith)]
    push_cast
    rw [one_div, Real.logb_inv]
    ring
  rw [List.map_congr_left hconst, List.map_const', hlen, List.sum_replicate,
    nsmul_eq_mul]
  field_simp

/-- C7: `compute_genetic_entropy` returns 0 whenever all live cells
(mass ≥ the 0.01 live threshold) fall into a single discretized
`(radius, mu, sigma)` bin, and returns `log2 k` whenever the total live
mass is split evenly across exactly `k` distinct bins (each bin holding
`total/k`).  The well-formedness hypothesis keeps the input inside the
domain where the Rust loops do not index out of bounds. -/
theorem compute_genetic_entropy_bounds (ga mass : List ℚ) (bins k : ℕ)
    (hwf : ga.length / 4 ≤ mass.length) :
    ((∀ e₁ ∈ binnedLive bins (toCells ga mass),
        ∀ e₂ ∈ binnedLive bins (toCells ga mass), e₁.1 = e₂.1) →
       compute_genetic_entropy ga mass bins = 0) ∧
    (1 ≤ k → (histKeys (binnedLive bins (toCells ga mass))).length = k →
      (∀ key ∈ histKeys (binnedLive bins (toCells ga mass)),
        binMass (binnedLive bins (toCells ga mass)) key =
          totalLiveMass (binnedLive bins (toCells ga mass)) / k) →
       compute_genetic_entropy ga mass bins = Real.logb 2 k) :=
  ⟨entropy_zero_of_single_bin,
   fun hk hlen hsplit => entropy_even_split hk hlen hsplit⟩

theorem toU8_eq {q : ℚ} {n : ℕ} (h0 : 0 ≤ q) (h1 : (n : ℚ) ≤ q) (h2 : q < n + 1)
    (h3 : n ≤ 255) : toU8 q = n := by
  unfold toU8
  rw [if_neg (not_lt.mpr h0)]
  have hf : ⌊q⌋ = (n : ℤ) := by
    rw [Int.floor_eq_iff]
    constructor
    · exact_mod_cast h1
    · push_cast
      exact h2
  rw [hf]
  simp [min_eq_right, h3]

theorem witness_binKey₁ : binKey 10 ⟨1, 5, 1/2, 3/20, 0⟩ = (3, 5, 5) := by
  unfold binKey
  rw [show min (((⟨1, 5, 1/2, 3/20, 0⟩ : Cell).r) / 16 * (10 : ℕ)) (((10 : ℕ) : ℚ) - 1) =
    (5 : ℚ) / 16 * 10 from min_eq_left (by norm_num)]
  rw [show min (((⟨1, 5, 1/2, 3/20, 0⟩ : Cell).mu) * (10 : ℕ)) (((10 : ℕ) : ℚ) - 1) =
    (1 : ℚ) / 2 * 10 from min_eq_left (by norm_num)]
  rw [show min (((⟨1, 5, 1/2, 3/20, 0⟩ : Cell).sigma) / (3 / 10) * (10 : ℕ)) (((10 : ℕ) : ℚ) - 1) =
    (3 : ℚ) / 20 / (3 / 10) * 10 from min_eq_left (by norm_num)]
  rw [toU8_eq (n := 3) (by norm_num) (by norm_num) (by norm_num) (by norm_num),
    toU8_eq (n := 5) (by norm_num) (by norm_num) (by norm_num) (by norm_num),
    toU8_eq (n := 5) (by norm_num) (by norm_num) (by norm_num) (by norm_num)]

theorem witness_binKey₂ : binKey 10 ⟨1, 15, 1/2, 3/20, 0⟩ = (9, 5, 5) := by
  unfold binKey
  rw [show min (((⟨1, 15, 1/2, 3/20, 0⟩ : Cell).r) / 16 * (10 : ℕ)) (((10 : ℕ) : ℚ) - 1) =
    (9 : ℚ) from (min_eq_right (by norm_num)).trans (by norm_num)]
  rw [show min (((⟨1, 15, 1/2, 3/20, 0⟩ : Cell).mu) * (10 : ℕ)) (((10 : ℕ) : ℚ) - 1) =
    (1 : ℚ) / 2 * 10 from min_eq_left (by norm_num)]
  rw [show min (((⟨1, 15, 1/2, 3/20, 0⟩ : Cell).sigma) / (3 / 10) * (10 : ℕ)) (((10 : ℕ) : ℚ) - 1) =
    (3 : ℚ) / 20 / (3 / 10) * 10 from min_eq_left (by norm_num)]
  rw [toU8_eq (n := 9) (by norm_num) (by norm_num) (by norm_num) (by norm_num),
    toU8_eq (n := 5) (by norm_num) (by norm_num) (by norm_num) (by norm_num),
    toU8_eq (n := 5) (by norm_num) (by norm_num) (by norm_num) (by norm_num)]

theorem witness_binnedLive :
    binnedLive 10 (toCells [5, 1/2, 3/20, 0, 15, 1/2, 3/20, 0] [1, 1]) =
      [((3, 5, 5), (1 : ℚ)), ((9, 5, 5), (1 : ℚ))] := by
  rw [show toCells [5, 1/2, 3/20, 0, 15, 1/2, 3/20, 0] [1, 1] =
    [⟨1, 5, 1/2, 3/20, 0⟩, ⟨1, 15, 1/2, 3/20, 0⟩] from rfl]
  unfold binnedLive
  rw [List.filterMap_cons, List.filterMap_cons, List.filterMap_nil]
  rw [if_neg (show ¬ ((⟨1, 5, 1/2, 3/20, 0⟩ : Cell).m < 1 / 100) by norm_num)]
  rw [if_neg (show ¬ ((⟨1, 15, 1/2, 3/20, 0⟩ : Cell).m < 1 / 100) by norm_num)]
  rw [witness_binKey₁, witness_binKey₂]

theorem compute_genetic_entropy_bounds_witness :
    compute_genetic_entropy [5, 1/2, 3/20, 0, 15, 1/2, 3/20, 0] [1, 1] 10 =
      Real.logb 2 2 :=
  (compute_genetic_entropy_bounds [5, 1/2, 3/20, 0, 15, 1/2, 3/20, 0] [1, 1] 10 2
    (by decide)).2 (by decide)
    (by rw [witness_binnedLive]; rfl)
    (by
      intro key hkey
      rw [witness_binnedLive] at hkey ⊢
      rw [show histKeys [((3, 5, 5), (1 : ℚ)), ((9, 5, 5), (1 : ℚ))] =
        [(3, 5, 5), (9, 5, 5)] from rfl] at hkey
      have htot : totalLiveMass [((3, 5, 5), (1 : ℚ)), ((9, 5, 5), (1 : ℚ))] = 2 := by
        norm_num [totalLiveMass]
      rcases List.mem_cons.mp hkey with h | h
      · subst h
        rw [htot]
        norm_num [binMass]
      · rcases List.mem_cons.mp h with h2 | h2
        · subst h2
          rw [htot]
          norm_num [binMass]
        · cases h2)

/-- C5 (code-bug evidence): `avg_mass_live` divides the total mass of ALL
pixels by the live-pixel count, so the dead pixel of mass `1/128` (below
the 0.01 live threshold) contributes to the statistic: the result is
`65/128`, not the claimed live-only mean `1/2`.  This contradicts the
field's own comment "average mass over live pixels only". -/
theorem avg_mass_live_includes_dead_mass :
    avg_mass_live [1/128, 1/2] = 65/128 ∧ (65/128 : ℚ) ≠ 1/2 := by
  constructor
  · have hfilter : livePixels [1/128, 1/2] = 1 := by
      unfold livePixels
      rw [List.filter_cons, List.filter_cons, List.filter_nil]
      rw [if_neg (by simp only [decide_eq_true_eq]; norm_num)]
      rw [if_pos (by simp only [decide_eq_true_eq]; norm_num)]
      rfl
    unfold avg_mass_live
    rw [hfilter, if_pos (by norm_num)]
    unfold totalMass
    norm_num
  · norm_num

/-- C4 counterexample: with `mass_normalization_enabled = false` (all the
other parameters at their defaults) the simulation step still encodes the
normalization dispatch, because `encode_simulation_passes` takes no
parameters and every step loop invokes it unconditionally. -/
theorem normalize_dispatch_cex :
    Pass.normalize ∈
      stepPasses { SimulationParams.default with mass_normalization_enabled := false } ∧
    ({ SimulationParams.default with
        mass_normalization_enabled := false } : SimulationParams).mass_normalization_enabled
      = false := by
  constructor
  · simp [stepPasses, encode_simulation_passes]
  · rfl

/-- C4 amended: the normalization dispatch is encoded in every simulation
step regardless of the configured parameters; in particular the
`mass_normalization_enabled` flag does not gate the dispatch. -/
theorem normalize_dispatch_unconditional (p : SimulationParams) :
    Pass.normalize ∈ stepPasses p := by
  simp [stepPasses, encode_simulation_passes]

theorem detect_species_eq (ga mass : List ℚ) (maxS : ℕ) :
    detect_species ga mass maxS =
      if ga.length < 4 ∨ mass = [] then 0
      else if (liveGenomes (toCells ga mass)).length < maxS then
        (liveGenomes (toCells ga mass)).length
      else (addUnique [] (liveGenomes (toCells ga mass)) maxS).length := rfl

theorem addUnique_length_le {gs uniq : List (ℚ × ℚ × ℚ × ℚ)} {maxS : ℕ}
    (h : uniq.length < maxS) : (addUnique uniq gs maxS).length ≤ maxS := by
  induction gs generalizing uniq with
  | nil =>
      unfold addUnique
      omega
  | cons g rest ih =>
      simp only [addUnique]
      split
      · split
        · rename_i houter
          simp only [List.length_append, List.length_cons, List.length_nil]
          omega
        · rename_i houter
          apply ih
          simp only [List.length_append, List.length_cons, List.length_nil] at houter ⊢
          omega
      · split
        · omega
        · exact ih h

/-- C8 amended: whenever `max_species ≥ 1`, `detect_species` never
returns more than `max_species`; and (for every `max_species`) it returns
0 when no cell has mass strictly greater than 0.05.  The cap fails only
in the degenerate case `max_species = 0` (see the counterexample), which
the greedy loop checks only after its first insertion. -/
theorem detect_species_bounds (ga mass : List ℚ) (maxS : ℕ)
    (hwf : ga.length / 4 ≤ mass.length) :
    (1 ≤ maxS → detect_species ga mass maxS ≤ maxS) ∧
    ((∀ c ∈ toCells ga mass, c.m ≤ 1/20) → detect_species ga mass maxS = 0) := by
  constructor
  · intro hmax
    rw [detect_species_eq]
    split
    · omega
    · split
      · omega
      · exact addUnique_length_le (by simp only [List.length_nil]; omega)
  · intro hdead
    have hnil : liveGenomes (toCells ga mass) = [] := by
      unfold liveGenomes
      rw [List.filterMap_eq_nil_iff]
      intro c hc
      rw [if_neg (not_lt.mpr (hdead c hc))]
    rw [detect_species_eq, hnil]
    simp [addUnique]

theorem detect_species_bounds_witness :
    detect_species [5, 1/2, 3/20, 0] [1] 20 ≤ 20 ∧
    detect_species [5, 1/2, 3/20, 0] [0] 20 = 0 :=
  ⟨(detect_species_bounds [5, 1/2, 3/20, 0] [1] 20 (by decide)).1 (by decide),
   (detect_species_bounds [5, 1/2, 3/20, 0] [0] 20 (by decide)).2 (by
      intro c hc
      rw [show toCells [5, 1/2, 3/20, 0] [0] = [⟨0, 5, 1/2, 3/20, 0⟩] from rfl] at hc
      rcases List.mem_cons.mp hc with h | h
      · subst h
        norm_num
      · cases h)⟩

/-- C8 counterexample: with `max_species = 0` and a single cell of mass 1
(mass > 0.05), `detect_species` returns 1, exceeding the cap: the greedy
loop pushes the first genome before it checks the cap. -/
theorem detect_species_cap_cex : ¬ detect_species [5, 1/2, 3/20, 0] [1] 0 ≤ 0 := by
  have hlg : liveGenomes (toCells [5, 1/2, 3/20, 0] [1]) =
      [((5 : ℚ), (1 : ℚ)/2, (3 : ℚ)/20, (0 : ℚ))] := by
    rw [show toCells [5, 1/2, 3/20, 0] [1] = [⟨1, 5, 1/2, 3/20, 0⟩] from rfl]
    unfold liveGenomes
    rw [List.filterMap_cons, List.filterMap_nil]
    rw [if_pos (show (1 : ℚ)/20 < (⟨1, 5, 1/2, 3/20, 0⟩ : Cell).m by norm_num)]
    rfl
  have hdet : detect_species [5, 1/2, 3/20, 0] [1] 0 = 1 := by
    rw [detect_species_eq, hlg]
    rw [if_neg (by simp)]
    rw [if_neg (by simp)]
    simp only [addUnique]
    rw [if_pos (by simp)]
    rw [if_pos (by simp)]
    simp
  omega

theorem clusterWorld_binnedLive {pre g1 g2 post : ℕ} {live dead : Cell} {bins : ℕ}
    (hl : ¬ live.m < 1/100) (hd : dead.m < 1/100) :
    binnedLive bins (clusterWorld pre g1 g2 post live dead) =
      List.replicate 9 (binKey bins live, live.m) := by
  unfold clusterWorld binnedLive
  simp only [List.filterMap_append]
  rw [filterMap_replicate_none (by rw [if_pos hd]) pre,
      filterMap_replicate_none (by rw [if_pos hd]) g1,
      filterMap_replicate_none (by rw [if_pos hd]) g2,
      filterMap_replicate_none (by rw [if_pos hd]) post,
      filterMap_replicate_some (b := (binKey bins live, live.m)) (by rw [if_neg hl]) 3]
  rw [show (9 : ℕ) = 3 + (3 + 3) from rfl, List.replicate_add, List.replicate_add]
  simp

theorem clusterWorld_liveGenomes {pre g1 g2 post : ℕ} {live dead : Cell}
    (hl : 1/20 < live.m) (hd : ¬ 1/20 < dead.m) :
    liveGenomes (clusterWorld pre g1 g2 post live dead) =
      List.replicate 9 (genomeOf live) := by
  unfold clusterWorld liveGenomes
  simp only [List.filterMap_append]
  rw [filterMap_replicate_none (by rw [if_neg hd]) pre,
      filterMap_replicate_none (by rw [if_neg hd]) g1,
      filterMap_replicate_none (by rw [if_neg hd]) g2,
      filterMap_replicate_none (by rw [if_neg hd]) post,
      filterMap_replicate_some (b := genomeOf live) (by rw [if_pos hl]) 3]
  rw [show (9 : ℕ) = 3 + (3 + 3) from rfl, List.replicate_add, List.replicate_add]
  simp

theorem clusterWorld_length (pre g1 g2 post : ℕ) (live dead : Cell) :
    (clusterWorld pre g1 g2 post live dead).length =
      pre + 3 + g1 + 3 + g2 + 3 + post := by
  simp [clusterWorld]
  omega

theorem clusterWorld_diag {pre g1 g2 post : ℕ} {live dead : Cell}
    (hl : live.m = 1) (hd : dead.m < 1/100) :
    compute_genetic_entropy (gaFlat (clusterWorld pre g1 g2 post live dead))
        (massFlat (clusterWorld pre g1 g2 post live dead)) 10 = 0 ∧
    detect_species (gaFlat (clusterWorld pre g1 g2 post live dead))
        (massFlat (clusterWorld pre g1 g2 post live dead)) 20 = 9 := by
  have hl' : ¬ live.m < 1/100 := by rw [hl]; norm_num
  have hl2 : (1 : ℚ)/20 < live.m := by rw [hl]; norm_num
  have hd2 : ¬ (1 : ℚ)/20 < dead.m := by push_neg; linarith
  constructor
  · apply entropy_zero_of_single_bin
    rw [toCells_gaFlat, clusterWorld_binnedLive hl' hd]
    intro e₁ h₁ e₂ h₂
    rw [List.eq_of_mem_replicate h₁, List.eq_of_mem_replicate h₂]
  · rw [detect_species_eq, toCells_gaFlat, clusterWorld_liveGenomes hl2 hd2]
    rw [if_neg (by
      push_neg
      constructor
      · rw [gaFlat_length, clusterWorld_length]
        omega
      · apply List.length_pos.mp
        rw [massFlat_length, clusterWorld_length]
        omega)]
    rw [if_pos (by simp)]
    simp

/-- C1 counterexample: on a 512×512 world holding exactly one 3×3 block
of mass-1.0 cells with one shared genome — the block occupies columns
0–2 of rows 0–2, so consecutive live runs are separated by 509 dead
cells — `detect_species` with the diagnostics cap 20 returns 9, not the
claimed 1: the 9 live genomes are fewer than the cap, so the function
returns the raw live-cell count without any clustering. -/
theorem scenario_species_cex :
    detect_species
        (gaFlat (clusterWorld 0 509 509 261117 ⟨1, 5, 1/2, 3/20, 0⟩ ⟨0, 5, 1/2, 3/20, 0⟩))
        (massFlat (clusterWorld 0 509 509 261117 ⟨1, 5, 1/2, 3/20, 0⟩ ⟨0, 5, 1/2, 3/20, 0⟩))
        20 = 9 ∧ (9 : ℕ) ≠ 1 :=
  ⟨(clusterWorld_diag rfl (by norm_num)).2, by decide⟩

/-- C1 amended: for a 512×512 world containing exactly one 3×3 stamped
cluster of mass-1.0 cells sharing one genome (every other cell dead,
mass below the 0.01 live threshold), the diagnostics computations on its
snapshot yield genetic entropy exactly 0 — but a species count of 9, not
1: since the 9 live genomes are fewer than the configured cap of 20,
`detect_species` returns the raw live-cell count. -/
theorem scenario_entropy_zero_species_nine (pre g1 g2 post : ℕ) (live dead : Cell)
    (hgrid : pre + 3 + g1 + 3 + g2 + 3 + post = WORLD_WIDTH * WORLD_HEIGHT)
    (hg1 : g1 = WORLD_WIDTH - 3) (hg2 : g2 = WORLD_WIDTH - 3)
    (hl : live.m = 1) (hd : dead.m < 1/100) :
    compute_genetic_entropy (gaFlat (clusterWorld pre g1 g2 post live dead))
        (massFlat (clusterWorld pre g1 g2 post live dead)) 10 = 0 ∧
    detect_species (gaFlat (clusterWorld pre g1 g2 post live dead))
        (massFlat (clusterWorld pre g1 g2 post live dead)) 20 = 9 :=
  clusterWorld_diag hl hd

theorem scenario_entropy_zero_species_nine_witness :
    compute_genetic_entropy
        (gaFlat (clusterWorld 512 509 509 260605 ⟨1, 5, 1/2, 3/20, 0⟩ ⟨0, 5, 1/2, 3/20, 0⟩))
        (massFlat (clusterWorld 512 509 509 260605 ⟨1, 5, 1/2, 3/20, 0⟩ ⟨0, 5, 1/2, 3/20, 0⟩))
        10 = 0 ∧
    detect_species
        (gaFlat (clusterWorld 512 509 509 260605 ⟨1, 5, 1/2, 3/20, 0⟩ ⟨0, 5, 1/2, 3/20, 0⟩))
        (massFlat (clusterWorld 512 509 509 260605 ⟨1, 5, 1/2, 3/20, 0⟩ ⟨0, 5, 1/2, 3/20, 0⟩))
        20 = 9 :=
  scenario_entropy_zero_species_nine 512 509 509 260605 ⟨1, 5, 1/2, 3/20, 0⟩
    ⟨0, 5, 1/2, 3/20, 0⟩ (by decide) (by decide) (by decide) rfl (by norm_num)

/-! ## World generation -/

/-- C3 (spec-modelled): world generation is deterministic given a seed.
`new_with_seed` (missing from the reviewed sources, modelled from the
spec) feeds the generator a stream that is a pure function of
`effective_seed`; when a seed is supplied, the generated world is
independent of the ambient (thread-RNG) randomness, so two runs with the
same seed produce identical initial mass, energy, genome and resource
fields. -/
theorem world_generation_seed_deterministic (p : SimulationParams) (s : ℕ)
    (ambient₁ ambient₂ : ℕ → ℝ) (h : p.effective_seed = some s) :
    new_with_seed p.effective_seed ambient₁ = new_with_seed p.effective_seed ambient₂ := by
  rw [h]
  rfl

theorem world_generation_seed_deterministic_witness :
    new_with_seed
      ({ SimulationParams.default with use_fixed_seed := true } : SimulationParams).effective_seed
      (fun _ => 0) =
    new_with_seed
      ({ SimulationParams.default with use_fixed_seed := true } : SimulationParams).effective_seed
      (fun _ => 1/2) :=
  world_generation_seed_deterministic _ 42 _ _ rfl

theorem foldl_preserve {α : Type} {P : GenSt → Prop} {f : GenSt → α → GenSt}
    (hf : ∀ st a, P st → P (f st a)) (l : List α) :
    ∀ {st : GenSt}, P st → P (l.foldl f st) := by
  induction l with
  | nil => intro st h; exact h
  | cons x xs ih => intro st h; exact ih (hf st x h)

theorem stamp_sigmaPos {idx : ℕ} {m e : ℝ} {genome : G4} {mr : ℝ} {st : GenSt}
    (hg : 0 < genome.sigma) (h : SigmaPos st) : SigmaPos (stamp idx m e genome mr st) := by
  intro j
  show 0 < ((Function.update st.ga idx genome) j).sigma
  rcases eq_or_ne j idx with rfl | hne
  · rwa [Function.update_same]
  · rw [Function.update_noteq hne]
    exact h j

theorem sigma_draw_pos {u : ℕ → ℝ} (hu : ValidStream u) (n : ℕ) :
    0 < (4 : ℝ)/100 + u n * (18/100 - 4/100) := by
  have := mul_nonneg (hu n).1 (by norm_num : (0:ℝ) ≤ 18/100 - 4/100)
  linarith

theorem sigma_draw_pos_pred {u : ℕ → ℝ} (hu : ValidStream u) (n : ℕ) :
    0 < (6 : ℝ)/100 + u n * (12/100 - 6/100) := by
  have := mul_nonneg (hu n).1 (by norm_num : (0:ℝ) ≤ 12/100 - 6/100)
  linarith

theorem gaussianCluster_sigmaPos {u : ℕ → ℝ} (hu : ValidStream u) {st : GenSt}
    (h : SigmaPos st) : SigmaPos (gaussianCluster u st) := by
  unfold gaussianCluster random_genome gen_range gen_range_int draw
  simp only
  refine foldl_preserve (fun st₁ dy h₁ => ?_) _ ?_
  · refine foldl_preserve (fun st₂ dx h₂ => ?_) _ h₁
    split
    · exact h₂
    · exact stamp_sigmaPos (sigma_draw_pos hu _) h₂
  · exact h

theorem ringCluster_sigmaPos {u : ℕ → ℝ} (hu : ValidStream u) {st : GenSt}
    (h : SigmaPos st) : SigmaPos (ringCluster u st) := by
  unfold ringCluster random_genome gen_range gen_range_int draw
  simp only
  refine foldl_preserve (fun st₁ dy h₁ => ?_) _ ?_
  · refine foldl_preserve (fun st₂ dx h₂ => ?_) _ h₁
    split
    · exact h₂
    · split
      · exact h₂
      · exact stamp_sigmaPos (sigma_draw_pos hu _) h₂
  · exact h

theorem lineCluster_sigmaPos {u : ℕ → ℝ} (hu : ValidStream u) {st : GenSt}
    (h : SigmaPos st) : SigmaPos (lineCluster u st) := by
  unfold lineCluster random_genome gen_range gen_range_int draw
  simp only
  refine foldl_preserve (fun st₁ sStep h₁ => ?_) _ ?_
  · refine foldl_preserve (fun st₂ dy h₂ => ?_) _ h₁
    refine foldl_preserve (fun st₃ dx h₃ => ?_) _ h₂
    split
    · exact h₃
    · exact stamp_sigmaPos (sigma_draw_pos hu _) h₃
  · exact h

theorem spiralCluster_sigmaPos {u : ℕ → ℝ} (hu : ValidStream u) {st : GenSt}
    (h : SigmaPos st) : SigmaPos (spiralCluster u st) := by
  unfold spiralCluster random_genome gen_range gen_range_int draw
  simp only
  refine foldl_preserve (fun st₁ arm h₁ => ?_) _ ?_
  · refine foldl_preserve (fun st₂ sStep h₂ => ?_) _ h₁
    refine foldl_preserve (fun st₃ dy h₃ => ?_) _ h₂
    refine foldl_preserve (fun st₄ dx h₄ => ?_) _ h₃
    split
    · exact h₄
    · split
      · exact h₄
      · exact stamp_sigmaPos (sigma_draw_pos hu _) h₄
  · exact h

theorem noisePatch_sigmaPos {u : ℕ → ℝ} (hu : ValidStream u) {st : GenSt}
    (h : SigmaPos st) : SigmaPos (noisePatch u st) := by
  unfold noisePatch random_genome gen_range gen_range_int draw
  simp only
  refine foldl_preserve (fun st₁ dy h₁ => ?_) _ ?_
  · refine foldl_preserve (fun st₂ dx h₂ => ?_) _ h₁
    split
    · exact h₂
    · split
      · exact h₂
      · exact stamp_sigmaPos (sigma_draw_pos hu _) h₂
  · exact h

theorem predatorNest_sigmaPos {u : ℕ → ℝ} (hu : ValidStream u) {st : GenSt}
    (h : SigmaPos st) : SigmaPos (predatorNest u st) := by
  unfold predatorNest gen_range gen_range_int draw
  simp only
  refine foldl_preserve (fun st₁ dy h₁ => ?_) _ ?_
  · refine foldl_preserve (fun st₂ dx h₂ => ?_) _ h₁
    split
    · exact h₂
    · exact stamp_sigmaPos (sigma_draw_pos_pred hu _) h₂
  · exact h

theorem oasis_sigmaPos {u : ℕ → ℝ} {st : GenSt}
    (h : SigmaPos st) : SigmaPos (oasis u st) := by
  unfold oasis gen_range_int draw
  simp only
  refine foldl_preserve (fun st₁ dy h₁ => ?_) _ ?_
  · refine foldl_preserve (fun st₂ dx h₂ => ?_) _ h₁
    split
    · exact h₂
    · exact h₂
  · exact h

theorem desert_sigmaPos {u : ℕ → ℝ} {st : GenSt}
    (h : SigmaPos st) : SigmaPos (desert u st) := by
  unfold desert gen_range_int draw
  simp only
  refine foldl_preserve (fun st₁ dy h₁ => ?_) _ ?_
  · refine foldl_preserve (fun st₂ dx h₂ => ?_) _ h₁
    split
    · exact h₂
    · exact h₂
  · exact h

theorem gradientBands_sigmaPos {u : ℕ → ℝ} {st : GenSt}
    (h : SigmaPos st) : SigmaPos (gradientBands u st) := by
  unfold gradientBands gen_range draw
  simp only
  refine foldl_preserve (fun st₁ py h₁ => ?_) _ ?_
  · refine foldl_preserve (fun st₂ px h₂ => ?_) _ h₁
    exact h₂
  · exact h

theorem sigmaPos_set_resource {st : GenSt} {r : ℕ → ℝ} (h : SigmaPos st) :
    SigmaPos { st with resource := r } := h

theorem worldGenerate_sigmaPos {u : ℕ → ℝ} (hu : ValidStream u) :
    SigmaPos (worldGenerate u) := by
  have hbase : SigmaPos initGenSt := by
    intro idx
    show (0 : ℝ) < 15/100
    norm_num
  unfold worldGenerate
  apply gradientBands_sigmaPos
  refine foldl_preserve (fun st _ h => desert_sigmaPos h) _ ?_
  refine foldl_preserve (fun st _ h => oasis_sigmaPos h) _ ?_
  apply sigmaPos_set_resource
  refine foldl_preserve (fun st _ h => predatorNest_sigmaPos hu h) _ ?_
  refine foldl_preserve (fun st _ h => noisePatch_sigmaPos hu h) _ ?_
  refine foldl_preserve (fun st _ h => spiralCluster_sigmaPos hu h) _ ?_
  refine foldl_preserve (fun st _ h => lineCluster_sigmaPos hu h) _ ?_
  refine foldl_preserve (fun st _ h => ringCluster_sigmaPos hu h) _ ?_
  refine foldl_preserve (fun st _ h => gaussianCluster_sigmaPos hu h) _ ?_
  exact hbase

/-- C9: in a freshly generated world (the CPU output of
`WorldState::new`, before any simulation step), every cell's GenomeA σ
component is strictly positive — stamped cells carry σ drawn from
`[0.04, 0.18)` (patterns 1–5) or `[0.06, 0.12)` (predator nests), and
unstamped cells keep the default genome's σ = 0.15. -/
theorem fresh_world_sigma_pos (u : ℕ → ℝ) (hu : ValidStream u) (idx : ℕ) :
    0 < ((worldGenerate u).ga idx).sigma :=
  worldGenerate_sigmaPos hu idx

theorem fresh_world_sigma_pos_witness :
    0 < ((worldGenerate fun _ => 0).ga 0).sigma :=
  fresh_world_sigma_pos (fun _ => 0) (fun n => by norm_num) 0

end Evolenia
